import Mathlib

/-
  Verification development for the OData Navigator terminal browser
  (Go sources: main.go, odata.go, config.go).

  The Go program is shallowly embedded: the pure state of the Bubble Tea
  model is a Lean structure, the `Update` reducer and its helper methods
  (`drillDown`, `goBack`, `saveModalChanges`, `extractEntityKey`,
  `formatEntityForDisplay`, `GetEntitiesWithCount` post-processing, ...)
  are Lean functions over it.  Conventions:

  * Go `map[string]interface{}` values decoded from JSON are modelled by
    the inductive `Value`; an entity is an association list
    `List (String × Value)` whose list order stands for Go's map
    iteration order (which Go randomises; claims about order sensitivity
    quantify over permutations of the list).  JSON `null` decodes to a
    nil interface in Go, modelled by `Value.vnull`; a map read of an
    absent key also yields nil, so `lookupField` returning `none` and
    returning `some .vnull` both correspond to Go `nil`.
  * JSON numbers (Go float64) are modelled as integers; no claim
    depends on numeric formatting.
  * Go string indexing is by byte; the embedding indexes by character,
    which agrees on the ASCII data all claims use.
  * Go `int` is modelled by `Int` wherever the source can drive the
    quantity negative (cursors), and by `Nat` for `activeColumn`, which
    the source keeps non-negative (initialised to 0, incremented, and
    decremented only under a positivity guard).
  * External collaborators that the spec excludes from the core
    (JSON (de)serialisation of records, the metadata word-wrapper, the
    float-based modal/layout size arithmetic) are parameters, collected
    in the structure `Ext`.
-/

namespace ONav

/-- JSON-like values as decoded by encoding/json into interface{}. -/
inductive Value where
  | vnull : Value
  | vstr (s : String) : Value
  | vnum (n : Int) : Value
  | vbool (b : Bool) : Value
  | vobj (fields : List (String × Value)) : Value
  | varr (elems : List Value) : Value

/-- An entity record: Go map[string]interface{} as an ordered association
list (list order = Go map iteration order). -/
abbrev Entity := List (String × Value)

/-- Association-list lookup: Go map read (first binding wins; in a
well-formed map keys are distinct). -/
def lookupField : Entity → String → Option Value
  | [], _ => none
  | (k, v) :: rest, key => if key = k then some v else lookupField rest key

/-- Go nil test on a map read: absent key or JSON null. -/
def isNilAt (e : Entity) (k : String) : Bool :=
  match lookupField e k with
  | none => true
  | some .vnull => true
  | some _ => false

/-- Go type assertion `entity[k].(map[string]interface{})`. -/
def getObj (e : Entity) (k : String) : Option Entity :=
  match lookupField e k with
  | some (.vobj fields) => some fields
  | _ => none

/-- Go type assertion `entity[k].(string)`. -/
def getStr (e : Entity) (k : String) : Option String :=
  match lookupField e k with
  | some (.vstr s) => some s
  | _ => none

/-- The single-quote character as a string (used by key formatting). -/
def sq : String := ⟨[Char.ofNat 39]⟩

/-- Rendering of a value by fmt.Sprintf("%v").  Nested composites are
never rendered by any claim; their exact text is elided. -/
def goFormatValue : Value → String
  | .vnull => "<nil>"
  | .vstr s => s
  | .vnum n => toString n
  | .vbool b => if b then "true" else "false"
  | .vobj _ => "map[...]"
  | .varr _ => "[...]"

/-- strings.HasPrefix, on character lists. -/
def goHasPre (s pre : String) : Bool :=
  pre.toList.isPrefixOf s.toList

/-- Index of the first occurrence of `sep` in `l` (strings.Index). -/
def subIdx (l sep : List Char) : Option Nat :=
  match l with
  | [] => if sep.isEmpty then some 0 else none
  | _ :: rest =>
    if sep.isPrefixOf l then some 0 else (subIdx rest sep).map (fun n => n + 1)

/-- strings.Contains. -/
def containsSub (s sub : String) : Bool :=
  (subIdx s.toList sub.toList).isSome

/-- strings.ToLower (character-wise). -/
def lowerStr (s : String) : String :=
  String.mk (s.toList.map Char.toLower)

/-- strings.Split(s, sep)[0]: the text before the first occurrence of
the separator, or all of s when the separator does not occur. -/
def headSplit (s sep : String) : String :=
  match subIdx s.toList sep.toList with
  | some i => String.mk (s.toList.take i)
  | none => s

/-- Index of the last occurrence of a character in a list. -/
def lastIdxOf (l : List Char) (c : Char) : Option Nat :=
  ((l.enum.filter (fun p => p.2 = c)).map (fun p => p.1)).getLast?

/-- Key extraction from an OData URI: strings.LastIndex(id, "(") then
strings.Index(id[lastParen:], ")"), returning id[lastParen+1 :
lastParen+endParen] (extractEntityKey, main.go). -/
def parenKey (id : String) : Option String :=
  let l := id.toList
  match lastIdxOf l '(' with
  | none => none
  | some lp =>
    match (l.drop lp).findIdx? (fun c => c = ')') with
    | none => none
    | some ep => some (String.mk ((l.drop (lp + 1)).take (ep - 1)))

/-- Common key field patterns (extractEntityKey / formatEntityForDisplay,
main.go / odata.go). -/
def keyFields : List String :=
  ["Program", "Class", "Interface", "Package", "Function",
   "ID", "Id", "Key", "Code", "Number",
   "ProductID", "CategoryID", "CustomerID", "OrderID", "EmployeeID"]

/-- Key formatting in extractEntityKey: string keys are quoted for the
OData URL, other values go through %v. -/
def formatKeyVal : Value → String
  | .vstr s => sq ++ s ++ sq
  | v => goFormatValue v

/-- Stage 1 of extractEntityKey: __metadata.id, then __metadata.uri
(main.go lines 907-925).  If the id is present but no parenthesised key
can be cut out of it, the code falls through to the uri, then out of the
metadata block. -/
def metadataKey (e : Entity) : Option String :=
  match getObj e "__metadata" with
  | none => none
  | some md =>
    match (match getStr md "id" with
           | some id => parenKey id
           | none => none) with
    | some k => some k
    | none =>
      match getStr md "uri" with
      | some uri => parenKey uri
      | none => none

/-- Is a decoded value the Go nil interface (JSON null)? -/
def isNullV : Value → Bool
  | .vnull => true
  | _ => false

/-- Stage 2 of extractEntityKey: first conventional key field holding a
non-nil value (main.go lines 927-944). -/
def conventionalKey (e : Entity) : Option String :=
  keyFields.findSome? fun f =>
    match lookupField e f with
    | some v => if isNullV v then none else some (formatKeyVal v)
    | none => none

/-- Does a field qualify for the last-resort scan of extractEntityKey:
non-nil, not "__"-prefixed, name not containing "date" (main.go lines
946-955). -/
def fallbackQualifies (p : String × Value) : Bool :=
  !(isNullV p.2) && !(goHasPre p.1 "__") && !(containsSub (lowerStr p.1) "date")

/-- Stage 3 of extractEntityKey: scan the record's fields in iteration
order; the first qualifying field is formatted (a non-empty string is
quoted, anything else - including the empty string - goes through %v).
Returns none only when the loop falls through. -/
def fallbackScan (e : Entity) : Option String :=
  e.findSome? fun p =>
    if fallbackQualifies p then
      some (match p.2 with
            | .vstr s => if s ≠ "" then sq ++ s ++ sq else goFormatValue (.vstr s)
            | v => goFormatValue v)
    else none

/-- extractEntityKey (main.go lines 906-958): metadata id/uri, else the
conventional key-field list, else the last-resort field scan, else "". -/
def extractEntityKey (e : Entity) : String :=
  match metadataKey e with
  | some k => k
  | none =>
    match conventionalKey e with
    | some k => k
    | none =>
      match fallbackScan e with
      | some k => k
      | none => ""

/-- Records-key extraction exactly as the spec sentence describes it
(spec section 6): "prefer embedded self-identifying metadata, else fall
back to a conventional key-field name list, else fail with no key
determined" - it names no further fallback.  Kept for comparison with
`extractEntityKey`, which the source derives from any remaining field. -/
def specKeyExtraction (e : Entity) : String :=
  match metadataKey e with
  | some k => k
  | none =>
    match conventionalKey e with
    | some k => k
    | none => ""

/-- Descriptive fields appended to a list entry (odata.go,
formatEntityForDisplay). -/
def descFields : List String := ["Title", "Name", "Description", "Text"]

/-- formatEntityForDisplay (odata.go lines 229-273): first conventional
key field's value (with a descriptive suffix), else the first
non-metadata field rendered as "key: value", else a field-count
placeholder.  Go's map iteration order is the list order here. -/
def formatEntityForDisplay (e : Entity) : String :=
  let kv1 : Option (String × String) :=
    keyFields.findSome? fun f =>
      match lookupField e f with
      | some v =>
        if isNullV v then none
        else
          let ai := (descFields.findSome? fun df =>
            match lookupField e df with
            | some d =>
              if isNullV d || (match d with | .vstr s => s = "" | _ => false)
              then none else some (" | " ++ goFormatValue d)
            | none => none).getD ""
          some (goFormatValue v, ai)
      | none => none
  let keyValue := (kv1.map Prod.fst).getD ""
  let additionalInfo := (kv1.map Prod.snd).getD ""
  let keyValue :=
    if keyValue = "" then
      (e.findSome? fun p =>
        if !(isNullV p.2) && !(goHasPre p.1 "__")
        then some (p.1 ++ ": " ++ goFormatValue p.2) else none).getD ""
    else keyValue
  if keyValue = "" then "Entity (" ++ toString e.length ++ " fields)"
  else keyValue ++ additionalInfo

/-- Entity-set capability flags (odata.go). -/
structure EntityCapabilities where
  searchable : Bool
  filterable : Bool
  creatable : Bool
  updatable : Bool
  deletable : Bool
  mediaType : Bool

/-- GetEntitySetCapabilities (odata.go lines 296-337): hardcoded demo
capabilities per entity-set name. -/
def GetEntitySetCapabilities (entitySet : String) : EntityCapabilities :=
  if entitySet = "Categories" then ⟨true, true, true, true, true, false⟩
  else if entitySet = "Products" then ⟨true, true, true, true, false, false⟩
  else if entitySet = "Advertisements" then ⟨true, true, true, true, true, true⟩
  else ⟨true, true, false, false, false, false⟩

/-- EntityCapabilities.String (odata.go lines 339-360). -/
def capsString (c : EntityCapabilities) : String :=
  let caps :=
    (if c.searchable then ["S"] else []) ++ (if c.filterable then ["F"] else [])
    ++ (if c.creatable then ["C"] else []) ++ (if c.updatable then ["U"] else [])
    ++ (if c.deletable then ["D"] else []) ++ (if c.mediaType then ["M"] else [])
  "[" ++ String.intercalate "" caps ++ "]"

/-- Post-processing of GetEntitiesWithCount (odata.go lines 171-189):
`fetched` is the list the server returned for the $top=top+1 request
(the network fetch itself is an external collaborator).  A result longer
than `top` means more data exists; it is truncated to `top`. -/
def getEntitiesWithCount (fetched : List Entity) (top : Int) : List Entity × Bool :=
  let top := if top ≤ 0 then 10 else top
  if top < (fetched.length : Int) then (fetched.take top.toNat, true)
  else (fetched, false)

/-- One navigation column (main.go, struct column). -/
structure Column where
  title : String
  items : List String
  cursor : Int
  scrollOffset : Int
  width : Int
  height : Int
  focused : Bool
  entities : List Entity
  isDetails : Bool
  isPreview : Bool

/-- The zero value of the column struct. -/
def emptyColumn : Column :=
  { title := "", items := [], cursor := 0, scrollOffset := 0, width := 0,
    height := 0, focused := false, entities := [], isDetails := false,
    isPreview := false }

instance : Inhabited Column := ⟨emptyColumn⟩

/-- One configured service (config.go, struct ServiceConfig). -/
structure ServiceConfig where
  name : String
  url : String
  username : String
  password : String

/-- The connection data NewODataServiceWithAuth stores (odata.go). -/
structure Conn where
  baseURL : String
  username : String
  password : String

/-- The Bubble Tea model (main.go, struct model). -/
structure Model where
  columns : List Column
  activeColumn : Nat
  previewColumn : Option Column
  width : Int
  height : Int
  odata : Option Conn
  loading : Bool
  logs : List String
  showLogs : Bool
  services : List ServiceConfig
  serviceIndex : Int
  editMode : Bool
  editContent : List String
  editCursor : Int
  previewLoading : Bool
  modalEditor : Bool
  modalContent : List String
  modalCursor : Int
  modalScroll : Int
  modalColCursor : Int
  modalOperation : String

/-- Commands the reducer hands back to the runtime: each stands for one
unit of asynchronous work (or quit).  Payloads identify the request the
way the source's closures do. -/
inductive Cmd where
  | quit : Cmd
  | loadEntitySets : Cmd
  | loadEntities (entitySet : String) : Cmd
  | loadMetadata : Cmd
  | preview : Cmd
  | readDetail (entitySet entityKey : String) : Cmd
  | createReq (entitySet : String) (entity : Entity) : Cmd
  | updateReq (entitySet entityKey : String) (entity : Entity) : Cmd
  | unknownOp (op : String) : Cmd
  | batch (cmds : List Cmd) : Cmd

/-- Key events (tea.KeyMsg by its String form).  quitKey covers
ctrl+c / q / f10; right also stands for l and enter outside the modal
(one Go case); left also stands for h and esc. -/
inductive Key where
  | up | down | left | right | enterKey | escKey
  | f2 | f3 | f4 | f5 | f7 | f8 | f9
  | pgup | pgdown | homeKey | endKey
  | ctrlHome | ctrlEnd
  | backspace | deleteKey
  | quitKey
  | charKey (c : Char)
deriving DecidableEq

/-- Messages reduced by Update (main.go): async completion events,
window size, and key input. -/
inductive Msg where
  | entitySets (names : List String) : Msg
  | entities (entitySet : String) (ents : List Entity) (hasMore : Bool) : Msg
  | saveSuccess (operation entitySet message : String) : Msg
  | entityDetail (entitySet entityKey : String) (entity : Entity) : Msg
  | errorEvt (err context : String) : Msg
  | windowSize (w h : Int) : Msg
  | key (k : Key) : Msg

/-- External collaborators, excluded from the core by the spec:
JSON (de)serialisation of one record, the metadata word-wrapper
(formatMetadataForDisplay), the modal viewport height (computed in the
source as int(float64(height)*0.95)-4), and the layout allocator
updateColumnSizes (which only assigns column width/height fields). -/
structure Ext where
  parseRecord : String → Except String Entity
  serializeRecord : Entity → List String
  formatMetadata : String → Int → List String
  modalVisible : Int → Int
  resize : Model → Model

/-- Go slice read ls[i] for a possibly negative index; out-of-range
reads (which panic in Go) give "". -/
def lineAt (ls : List String) (i : Int) : String :=
  if 0 ≤ i then ls.getD i.toNat "" else ""

/-- Go slice write ls[i] = s; out-of-range writes (a panic in Go) are
dropped. -/
def setLineAt (ls : List String) (i : Int) (s : String) : List String :=
  if 0 ≤ i then ls.set i.toNat s else ls

/-- Go slice read of an entity list. -/
def entityAt (es : List Entity) (i : Int) : Entity :=
  if 0 ≤ i then es.getD i.toNat [] else []

/-- Go string slicing s[:i] (character-based; ASCII = bytes). -/
def strTake (s : String) (i : Int) : String := String.mk (s.toList.take i.toNat)

/-- Go string slicing s[i:] (character-based; ASCII = bytes). -/
def strDrop (s : String) (i : Int) : String := String.mk (s.toList.drop i.toNat)

/-- len of a string as a Go int. -/
def strLen (s : String) : Int := (s.length : Int)

/-- len of a list as a Go int. -/
def intLen (l : List α) : Int := (l.length : Int)

/-- The column at activeColumn. -/
def activeCol (m : Model) : Column := m.columns.getD m.activeColumn default

/-- Write back the column at activeColumn. -/
def setActiveCol (m : Model) (c : Column) : Model :=
  {m with columns := m.columns.set m.activeColumn c}

/-- Apply f to the first column satisfying p (the source's
find-and-break loops over m.columns). -/
def updateFirst (p : Column → Bool) (f : Column → Column) : List Column → List Column
  | [] => []
  | c :: rest => if p c then f c :: rest else c :: updateFirst p f rest

/-- Clear every column's focused flag (drillDown, main.go lines
706-708). -/
def clearFocus (cols : List Column) : List Column :=
  cols.map fun c => {c with focused := false}

/-- Set the focused flag of the column at index i (drillDown's
`m.columns[m.activeColumn].focused = true`). -/
def setFocusTrue (cols : List Column) (i : Nat) : List Column :=
  match cols.get? i with
  | some c => cols.set i {c with focused := true}
  | none => cols

/-- goBack's refocus loop: focused := (index == a), counting from i. -/
def refocusFrom (a : Nat) : Nat → List Column → List Column
  | _, [] => []
  | i, c :: rest => {c with focused := i == a} :: refocusFrom a (i + 1) rest

/-- goBack's refocus loop over the whole stack. -/
def refocus (cols : List Column) (a : Nat) : List Column :=
  refocusFrom a 0 cols

/-- The service-lookup loop of drillDown case 0: first service whose
Name equals the selection, with its index. -/
def findService (svcs : List ServiceConfig) (name : String) : Option (Nat × ServiceConfig) :=
  svcs.enum.find? fun p => p.2.name = name

/-- The column-append tail every drillDown case repeats: append the new
column, advance activeColumn, focus the new column, recompute sizes. -/
def pushColumn (ext : Ext) (m : Model) (newCol : Column) : Model :=
  let cols := m.columns ++ [newCol]
  let a := m.activeColumn + 1
  ext.resize {m with columns := setFocusTrue cols a, activeColumn := a}

/-- drillDown (main.go lines 693-851).  Guards, focus clearing and stack
truncation, then one case per level; the default case (level >= 3)
returns with the already-cleared focus flags.  JSON serialisation of the
selected record (case 2) is the external serializeRecord; its error
branch is unreachable for values decoded from JSON. -/
def drillDown (ext : Ext) (m : Model) : Model × Option Cmd :=
  if m.columns.length ≤ m.activeColumn then (m, none) else
  let currentCol := m.columns.getD m.activeColumn default
  if intLen currentCol.items ≤ currentCol.cursor then (m, none) else
  let selectedItem := lineAt currentCol.items currentCol.cursor
  let m := {m with columns := (clearFocus m.columns).take (m.activeColumn + 1)}
  if m.activeColumn = 0 then
    let m :=
      match findService m.services selectedItem with
      | some (i, svc) =>
        {m with serviceIndex := (i : Int),
                odata := some ⟨svc.url, svc.username, svc.password⟩,
                logs := m.logs ++ ["Connected to " ++ svc.name]}
      | none => m
    let newColumn := {emptyColumn with title := "EntitySets", items := ["Loading..."]}
    let m := pushColumn ext m newColumn
    ({m with loading := true}, some (.batch [.loadEntitySets, .preview]))
  else if m.activeColumn = 1 then
    let entitySetName := headSplit selectedItem " ["
    if entitySetName = "$metadata" then
      let newColumn := {emptyColumn with
        title := "Metadata", items := ["Loading metadata..."], isDetails := true}
      let m := pushColumn ext m newColumn
      ({m with loading := true}, some .loadMetadata)
    else
      let newColumn := {emptyColumn with title := entitySetName, items := ["Loading..."]}
      let m := pushColumn ext m newColumn
      ({m with loading := true}, some (.batch [.loadEntities entitySetName, .preview]))
  else if m.activeColumn = 2 then
    let prevCol := m.columns.getD m.activeColumn default
    let newColumn :=
      if prevCol.cursor < intLen prevCol.entities then
        let selectedEntity := entityAt prevCol.entities prevCol.cursor
        {emptyColumn with
          title := "Details", items := ext.serializeRecord selectedEntity,
          isDetails := true, entities := [selectedEntity]}
      else
        {emptyColumn with
          title := "Details", items := ["No entity data available"], isDetails := true}
    (pushColumn ext m newColumn, none)
  else (m, none)

/-- goBack (main.go lines 853-867): truncate to activeColumn columns,
decrement, refocus, resize. -/
def goBack (ext : Ext) (m : Model) : Model :=
  if 0 < m.activeColumn then
    let cols := m.columns.take m.activeColumn
    let a := m.activeColumn - 1
    ext.resize {m with columns := refocus cols a, activeColumn := a}
  else m

/-- updatePreview (main.go lines 961-1065), reduced to the shape of its
result: whether a preview command is issued.  The payload of the preview
request (spec 4.2's rule table) is inspected by no claim and is
collapsed to the Cmd.preview marker.  Note that the source's
`m.previewLoading = true` is written to a by-value receiver copy and is
lost, so the reducer state is unchanged. -/
def updatePreviewCmd (m : Model) : Option Cmd :=
  if m.columns.length ≤ m.activeColumn then none else
  let currentCol := m.columns.getD m.activeColumn default
  if intLen currentCol.items ≤ currentCol.cursor then none else
  match m.activeColumn with
  | 0 => some .preview
  | 1 => if m.odata.isSome then some .preview else none
  | _ =>
    if currentCol.isDetails then some .preview
    else if !currentCol.entities.isEmpty
            && decide (currentCol.cursor < intLen currentCol.entities)
    then some .preview
    else none

/-- openModalEditor (main.go lines 1126-1174). -/
def openModalEditor (m : Model) (operation : String) : Model :=
  let m := {m with modalEditor := true, modalOperation := operation,
                   modalCursor := 0, modalColCursor := 0, modalScroll := 0}
  if operation = "create" then
    {m with modalContent := ["\x7b", "  ", "\x7d"], modalCursor := 1, modalColCursor := 2,
            logs := m.logs ++ ["Create mode - F2 to save new entity, ESC to cancel"]}
  else if operation = "update" ∨ operation = "copy" then
    if m.activeColumn < m.columns.length then
      let currentCol := m.columns.getD m.activeColumn default
      if currentCol.isDetails && !currentCol.entities.isEmpty then
        {m with modalContent := currentCol.items, modalCursor := 0, modalColCursor := 0,
                logs := m.logs ++
                  [if operation = "update" then "Update mode - F2 to save changes, ESC to cancel"
                   else "Copy mode - F2 to save as new entity, ESC to cancel"]}
      else
        {m with modalEditor := false,
                logs := m.logs ++ ["Update/Copy only available for entity details"]}
    else
      {m with modalEditor := false,
              logs := m.logs ++ ["No entity selected for update/copy"]}
  else m

/-- The common tail of saveModalChanges: the final empty-name check,
then the loading flag, log line, and the dispatched request. -/
def saveDispatch (m : Model) (entitySetName entityKey : String) (updatedEntity : Entity) :
    Model × Option Cmd :=
  if entitySetName = "" then
    ({m with logs := m.logs ++ ["Cannot determine entity set name"]}, none)
  else
    ({m with loading := true,
             logs := m.logs ++
               ["Performing " ++ m.modalOperation ++ " operation on " ++ entitySetName ++ "..."]},
     some (if m.modalOperation = "create" ∨ m.modalOperation = "copy" then
             .createReq entitySetName updatedEntity
           else if m.modalOperation = "update" then
             .updateReq entitySetName entityKey updatedEntity
           else .unknownOp m.modalOperation))

/-- saveModalChanges (main.go lines 1177-1271): parse the buffer as one
JSON record (failure keeps editing), resolve the target entity set (and,
for update, the key of the original record), then dispatch the
create-or-update request. -/
def saveModalChanges (ext : Ext) (m : Model) : Model × Option Cmd :=
  if !m.modalEditor then (m, none) else
  match ext.parseRecord (String.intercalate "\n" m.modalContent) with
  | .error e => ({m with logs := m.logs ++ ["Invalid JSON: " ++ e]}, none)
  | .ok updatedEntity =>
    if m.modalOperation = "create" then
      let entitySetName := (m.columns.findSome? fun col =>
        if col.title ≠ "OData Services" ∧ col.title ≠ "EntitySets"
            ∧ col.title ≠ "Details" ∧ col.title ≠ "Metadata"
        then some col.title else none).getD ""
      if entitySetName = "" then
        ({m with logs := m.logs ++ ["Cannot determine entity set for create operation"]}, none)
      else saveDispatch m entitySetName "" updatedEntity
    else
      if m.columns.length ≤ m.activeColumn then
        ({m with logs := m.logs ++ ["No active column for update operation"]}, none)
      else
        let currentCol := m.columns.getD m.activeColumn default
        if !(currentCol.isDetails && !currentCol.entities.isEmpty) then
          ({m with logs := m.logs ++ ["No entity data for update operation"]}, none)
        else
          let entitySetName :=
            if 0 < m.activeColumn then (m.columns.getD (m.activeColumn - 1) default).title
            else ""
          if m.modalOperation = "update" then
            let entityKey := extractEntityKey (currentCol.entities.getD 0 [])
            if entityKey = "" then
              ({m with logs := m.logs ++ ["Cannot determine entity key for update operation"]},
               none)
            else saveDispatch m entitySetName entityKey updatedEntity
          else saveDispatch m entitySetName "" updatedEntity

/-- readEntityDetails (main.go lines 870-903). -/
def readEntityDetails (m : Model) : Model × Option Cmd :=
  if m.columns.length ≤ m.activeColumn then (m, none) else
  let currentCol := m.columns.getD m.activeColumn default
  if currentCol.isDetails || currentCol.entities.isEmpty
      || decide (intLen currentCol.entities ≤ currentCol.cursor) then
    ({m with logs := m.logs ++ ["F3: Select an entity in the entity list to read details"]},
     none)
  else
    let selectedEntity := entityAt currentCol.entities currentCol.cursor
    let entitySetName := currentCol.title
    let entityKey := extractEntityKey selectedEntity
    if entityKey = "" then
      ({m with logs := m.logs ++ ["F3: Could not determine entity key for detailed read"]},
       none)
    else
      ({m with loading := true,
               logs := m.logs ++
                 ["Reading detailed entity " ++ entityKey ++ " from " ++ entitySetName ++ "..."]},
       some (.readDetail entitySetName entityKey))

/-- The key switch outside the modal editor (main.go lines 508-635). -/
def plainKey (ext : Ext) (m : Model) (k : Key) : Model × Option Cmd :=
  match k with
  | .quitKey => (m, some .quit)
  | .up =>
    if m.editMode then
      (if 0 < m.editCursor then {m with editCursor := m.editCursor - 1} else m, none)
    else if m.activeColumn < m.columns.length then
      let col := m.columns.getD m.activeColumn default
      if 0 < col.cursor then
        let col := {col with cursor := col.cursor - 1}
        let col := if col.cursor < col.scrollOffset then {col with scrollOffset := col.cursor}
                   else col
        let m := setActiveCol m col
        if !col.isDetails then (m, updatePreviewCmd m) else (m, none)
      else (m, none)
    else (m, none)
  | .down =>
    if m.editMode then
      (if m.editCursor < intLen m.editContent - 1 then {m with editCursor := m.editCursor + 1}
       else m, none)
    else if m.activeColumn < m.columns.length then
      let col := m.columns.getD m.activeColumn default
      if col.cursor < intLen col.items - 1 then
        let col := {col with cursor := col.cursor + 1}
        let visibleHeight := col.height - 2
        let col := if col.scrollOffset + visibleHeight ≤ col.cursor then
                     {col with scrollOffset := col.cursor - visibleHeight + 1}
                   else col
        let m := setActiveCol m col
        if !col.isDetails then (m, updatePreviewCmd m) else (m, none)
      else (m, none)
    else (m, none)
  | .right => if !m.editMode then drillDown ext m else (m, none)
  | .enterKey => if !m.editMode then drillDown ext m else (m, none)
  | .left =>
    if m.editMode then
      ({m with editMode := false, logs := m.logs ++ ["Edit cancelled"]}, none)
    else
      let nm := goBack ext m
      (nm, updatePreviewCmd nm)
  | .escKey =>
    if m.editMode then
      ({m with editMode := false, logs := m.logs ++ ["Edit cancelled"]}, none)
    else
      let nm := goBack ext m
      (nm, updatePreviewCmd nm)
  | .f2 => (openModalEditor m "create", none)
  | .f3 => readEntityDetails m
  | .f4 => (openModalEditor m "update", none)
  | .f5 => (openModalEditor m "copy", none)
  | .f9 => ({m with showLogs := !m.showLogs}, none)
  | .pgup =>
    if m.activeColumn < m.columns.length then
      let col := m.columns.getD m.activeColumn default
      let pageSize := col.height - 2
      let newCursor := col.cursor - pageSize
      let newCursor := if newCursor < 0 then 0 else newCursor
      (setActiveCol m {col with cursor := newCursor, scrollOffset := newCursor}, none)
    else (m, none)
  | .pgdown =>
    if m.activeColumn < m.columns.length then
      let col := m.columns.getD m.activeColumn default
      let pageSize := col.height - 2
      let newCursor := col.cursor + pageSize
      let newCursor := if intLen col.items ≤ newCursor then intLen col.items - 1 else newCursor
      let col := {col with cursor := newCursor}
      let visibleHeight := col.height - 2
      let col := if col.scrollOffset + visibleHeight ≤ col.cursor then
                   {col with scrollOffset := col.cursor - visibleHeight + 1}
                 else col
      (setActiveCol m col, none)
    else (m, none)
  | .homeKey =>
    if m.activeColumn < m.columns.length then
      let col := m.columns.getD m.activeColumn default
      (setActiveCol m {col with cursor := 0, scrollOffset := 0}, none)
    else (m, none)
  | .endKey =>
    if m.activeColumn < m.columns.length then
      let col := m.columns.getD m.activeColumn default
      if !col.items.isEmpty then
        let col := {col with cursor := intLen col.items - 1}
        let visibleHeight := col.height - 2
        let col := if visibleHeight < intLen col.items then
                     {col with scrollOffset := intLen col.items - visibleHeight}
                   else {col with scrollOffset := 0}
        (setActiveCol m col, none)
      else (m, none)
    else (m, none)
  | _ => (m, none)

/-- The key switch inside the modal editor (main.go lines 331-504). -/
def modalKey (ext : Ext) (m : Model) (k : Key) : Model × Option Cmd :=
  match k with
  | .quitKey => (m, some .quit)
  | .escKey =>
    ({m with modalEditor := false, modalContent := [], modalCursor := 0, modalScroll := 0,
             modalColCursor := 0, modalOperation := "",
             logs := m.logs ++ ["Modal editor cancelled"]}, none)
  | .f2 => saveModalChanges ext m
  | .up =>
    if 0 < m.modalCursor then
      let m := {m with modalCursor := m.modalCursor - 1}
      let m := if m.modalCursor < m.modalScroll then {m with modalScroll := m.modalCursor}
               else m
      let m := if m.modalCursor < intLen m.modalContent
                  ∧ strLen (lineAt m.modalContent m.modalCursor) < m.modalColCursor then
                 {m with modalColCursor := strLen (lineAt m.modalContent m.modalCursor)}
               else m
      (m, none)
    else (m, none)
  | .down =>
    if m.modalCursor < intLen m.modalContent - 1 then
      let m := {m with modalCursor := m.modalCursor + 1}
      let modalHeight := ext.modalVisible m.height
      let m := if m.modalScroll + modalHeight ≤ m.modalCursor then
                 {m with modalScroll := m.modalCursor - modalHeight + 1}
               else m
      let m := if m.modalCursor < intLen m.modalContent
                  ∧ strLen (lineAt m.modalContent m.modalCursor) < m.modalColCursor then
                 {m with modalColCursor := strLen (lineAt m.modalContent m.modalCursor)}
               else m
      (m, none)
    else (m, none)
  | .left =>
    if 0 < m.modalColCursor then ({m with modalColCursor := m.modalColCursor - 1}, none)
    else if 0 < m.modalCursor then
      let m := {m with modalCursor := m.modalCursor - 1}
      let m := if m.modalCursor < intLen m.modalContent then
                 {m with modalColCursor := strLen (lineAt m.modalContent m.modalCursor)}
               else m
      (m, none)
    else (m, none)
  | .right =>
    if m.modalCursor < intLen m.modalContent
        ∧ m.modalColCursor < strLen (lineAt m.modalContent m.modalCursor) then
      ({m with modalColCursor := m.modalColCursor + 1}, none)
    else if m.modalCursor < intLen m.modalContent - 1 then
      ({m with modalCursor := m.modalCursor + 1, modalColCursor := 0}, none)
    else (m, none)
  | .enterKey =>
    if m.modalCursor < intLen m.modalContent then
      let currentLine := lineAt m.modalContent m.modalCursor
      let beforeCursor := strTake currentLine m.modalColCursor
      let afterCursor := strDrop currentLine m.modalColCursor
      let content := setLineAt m.modalContent m.modalCursor beforeCursor
      let content := content.take (m.modalCursor.toNat + 1) ++ [afterCursor]
                       ++ content.drop (m.modalCursor.toNat + 1)
      ({m with modalContent := content, modalCursor := m.modalCursor + 1, modalColCursor := 0},
       none)
    else (m, none)
  | .backspace =>
    if 0 < m.modalColCursor then
      if m.modalCursor < intLen m.modalContent then
        let line := lineAt m.modalContent m.modalCursor
        ({m with modalContent := setLineAt m.modalContent m.modalCursor
                   (strTake line (m.modalColCursor - 1) ++ strDrop line m.modalColCursor),
                 modalColCursor := m.modalColCursor - 1}, none)
      else (m, none)
    else if 0 < m.modalCursor then
      if m.modalCursor < intLen m.modalContent then
        let prevLine := lineAt m.modalContent (m.modalCursor - 1)
        let currentLine := lineAt m.modalContent m.modalCursor
        let m := {m with modalColCursor := strLen prevLine}
        let content := setLineAt m.modalContent (m.modalCursor - 1) (prevLine ++ currentLine)
        let content := content.take m.modalCursor.toNat ++ content.drop (m.modalCursor.toNat + 1)
        ({m with modalContent := content, modalCursor := m.modalCursor - 1}, none)
      else (m, none)
    else (m, none)
  | .deleteKey =>
    if m.modalCursor < intLen m.modalContent then
      let line := lineAt m.modalContent m.modalCursor
      if m.modalColCursor < strLen line then
        ({m with modalContent := setLineAt m.modalContent m.modalCursor
                   (strTake line m.modalColCursor ++ strDrop line (m.modalColCursor + 1))},
         none)
      else if m.modalCursor < intLen m.modalContent - 1 then
        let nextLine := lineAt m.modalContent (m.modalCursor + 1)
        let content := setLineAt m.modalContent m.modalCursor (line ++ nextLine)
        let content := content.take (m.modalCursor.toNat + 1)
                         ++ content.drop (m.modalCursor.toNat + 2)
        ({m with modalContent := content}, none)
      else (m, none)
    else (m, none)
  | .pgup =>
    let modalHeight := ext.modalVisible m.height
    let newCursor := m.modalCursor - modalHeight
    let newCursor := if newCursor < 0 then 0 else newCursor
    ({m with modalCursor := newCursor, modalScroll := newCursor}, none)
  | .pgdown =>
    let modalHeight := ext.modalVisible m.height
    let newCursor := m.modalCursor + modalHeight
    let newCursor := if intLen m.modalContent ≤ newCursor then intLen m.modalContent - 1
                     else newCursor
    let m := {m with modalCursor := newCursor}
    let m := if m.modalScroll + modalHeight ≤ m.modalCursor then
               {m with modalScroll := m.modalCursor - modalHeight + 1}
             else m
    (m, none)
  | .homeKey => ({m with modalColCursor := 0}, none)
  | .endKey =>
    if m.modalCursor < intLen m.modalContent then
      ({m with modalColCursor := strLen (lineAt m.modalContent m.modalCursor)}, none)
    else (m, none)
  | .ctrlHome => ({m with modalCursor := 0, modalColCursor := 0, modalScroll := 0}, none)
  | .ctrlEnd =>
    if !m.modalContent.isEmpty then
      let m := {m with modalCursor := intLen m.modalContent - 1}
      let m := {m with modalColCursor := strLen (lineAt m.modalContent m.modalCursor)}
      let modalHeight := ext.modalVisible m.height
      let m := if modalHeight < intLen m.modalContent then
                 {m with modalScroll := intLen m.modalContent - modalHeight}
               else {m with modalScroll := 0}
      (m, none)
    else (m, none)
  | .charKey c =>
    let m := if intLen m.modalContent ≤ m.modalCursor then
               {m with modalContent := m.modalContent ++ [""]}
             else m
    let line := lineAt m.modalContent m.modalCursor
    ({m with modalContent := setLineAt m.modalContent m.modalCursor
               (strTake line m.modalColCursor ++ String.singleton c
                  ++ strDrop line m.modalColCursor),
             modalColCursor := m.modalColCursor + 1}, none)
  | _ => (m, none)

/-- The entitySetsMsg branch of Update (main.go lines 138-160). -/
def handleEntitySets (m : Model) (names : List String) : Model :=
  let m := {m with loading := false,
                   logs := m.logs ++ ["Loaded " ++ toString names.length ++ " entity sets"]}
  let cols := updateFirst (fun c => c.title == "EntitySets")
    (fun c =>
      let items := ["$metadata [META]"]
        ++ names.map (fun es => es ++ " " ++ capsString (GetEntitySetCapabilities es))
      let items := if items.length == 1 then items ++ ["(No entity sets)"] else items
      {c with items := items}) m.columns
  {m with columns := cols}

/-- The entitiesMsg branch of Update (main.go lines 162-195).  The
matching loop accepts the first column whose title equals the event's
entity set OR is the literal "Metadata". -/
def handleEntities (ext : Ext) (m : Model) (entitySet : String) (ents : List Entity)
    (hasMore : Bool) : Model :=
  let m := {m with loading := false,
                   logs := m.logs ++
                     ["Loaded " ++ toString ents.length ++ " entities from " ++ entitySet]}
  let cols := updateFirst (fun c => c.title == entitySet || c.title == "Metadata")
    (fun c =>
      let c := {c with entities := ents}
      if entitySet == "Metadata" && !ents.isEmpty then
        match getStr (ents.getD 0 []) "metadata" with
        | some metadataStr => {c with items := ext.formatMetadata metadataStr (c.width - 4)}
        | none => {c with items := ["Error: Could not parse metadata"]}
      else
        let items := ents.map formatEntityForDisplay
        let items := if hasMore then items ++ ["[...more items]"] else items
        let items := if items.isEmpty then ["(No items)"] else items
        {c with items := items}) m.columns
  {m with columns := cols}

/-- The saveSuccessMsg branch of Update (main.go lines 280-288): close
and reset the modal editor and log the success; nothing else changes. -/
def handleSaveSuccess (m : Model) (operation _entitySet message : String) : Model :=
  {m with loading := false, modalEditor := false, modalContent := [], modalCursor := 0,
          modalScroll := 0, modalColCursor := 0, modalOperation := "",
          logs := m.logs ++ ["SUCCESS: " ++ operation ++ " operation completed - " ++ message]}

/-- The entityDetailMsg branch of Update (main.go lines 290-313). -/
def handleEntityDetail (ext : Ext) (m : Model) (entitySet entityKey : String)
    (entity : Entity) : Model :=
  let m := {m with loading := false,
                   logs := m.logs ++
                     ["Read detailed entity " ++ entityKey ++ " from " ++ entitySet]}
  let cols := updateFirst (fun c => c.title == "Details" && c.isDetails)
    (fun c => {c with
       entities := [entity], items := ext.serializeRecord entity,
       cursor := 0, scrollOffset := 0}) m.columns
  {m with columns := cols}

/-- The errorMsg branch of Update (main.go lines 315-321): log and trim
to the last 100 entries. -/
def handleError (m : Model) (err context : String) : Model :=
  let logs := m.logs ++ ["ERROR [" ++ context ++ "]: " ++ err]
  let logs := if 100 < logs.length then logs.drop (logs.length - 100) else logs
  {m with loading := false, logs := logs}

/-- Update (main.go lines 136-639): the single reducer all input and
async completion events are serialised through.  The previewMsg branch
(which writes only the preview pseudo-column) is outside every claim and
is not part of the event type. -/
def update (ext : Ext) (m : Model) (msg : Msg) : Model × Option Cmd :=
  match msg with
  | .entitySets names => (handleEntitySets m names, none)
  | .entities es ents hasMore => (handleEntities ext m es ents hasMore, none)
  | .saveSuccess op es message => (handleSaveSuccess m op es message, none)
  | .entityDetail es key ent => (handleEntityDetail ext m es key ent, none)
  | .errorEvt err ctx => (handleError m err ctx, none)
  | .windowSize w h => (ext.resize {m with width := w, height := h}, none)
  | .key k => if m.modalEditor then modalKey ext m k else plainKey ext m k

/-- GetServiceNames (config.go). -/
def GetServiceNames (services : List ServiceConfig) : List String :=
  services.map (fun s => s.name)

/-- DefaultServices (config.go). -/
def DefaultServices : List ServiceConfig :=
  [⟨"OData.org Demo", "https://services.odata.org/V2/OData/OData.svc", "", ""⟩,
   ⟨"Northwind V3", "https://services.odata.org/V3/Northwind/Northwind.svc", "", ""⟩,
   ⟨"TripPin (V4)", "https://services.odata.org/V4/TripPinServiceRW", "", ""⟩]

/-- initialModel (main.go lines 52-83), parameterised by the resolved
service list (configuration loading is excluded by the spec). -/
def initialModel (services : List ServiceConfig) : Model :=
  { columns := [{emptyColumn with
      title := "OData Services", items := GetServiceNames services, focused := true}],
    activeColumn := 0,
    previewColumn := some {emptyColumn with
      title := "Preview", items := ["Select a service to preview entity sets"],
      isPreview := true},
    width := 0, height := 0, odata := none,
    loading := false, logs := ["Application started"], showLogs := true,
    services := services, serviceIndex := -1,
    editMode := false, editContent := [], editCursor := 0, previewLoading := false,
    modalEditor := false, modalContent := [], modalCursor := 0, modalScroll := 0,
    modalColCursor := 0, modalOperation := "" }

/-- Drop the presentation-only size fields of a column. -/
def stripSizes (c : Column) : Column := {c with width := 0, height := 0}

/-- Drop every presentation-only size field of a model. -/
def stripModel (m : Model) : Model :=
  {m with columns := m.columns.map stripSizes,
          previewColumn := m.previewColumn.map stripSizes,
          width := 0, height := 0}

/-- A resize collaborator is admissible when it only rewrites width and
height fields (updateColumnSizes does exactly that). -/
def SizeOnly (f : Model → Model) : Prop := ∀ m, stripModel (f m) = stripModel m

/-- Everything of a column except its size fields, as a tuple. -/
def colCore (c : Column) :=
  (c.title, c.items, c.cursor, c.scrollOffset, c.focused, c.entities, c.isDetails, c.isPreview)

/-- A concrete instantiation of the collaborators, for closed
evaluations: parsing always fails, serialisation is empty, the modal
viewport is 24 lines tall, resizing is the identity. -/
def extId : Ext :=
  { parseRecord := fun _ => .error "parse failed",
    serializeRecord := fun _ => [],
    formatMetadata := fun _ _ => [],
    modalVisible := fun _ => 24,
    resize := id }

/-- n successive drill-down events (Enter), under the identity
collaborators. -/
def applyDrills : Nat → Model → Model
  | 0, m => m
  | n + 1, m => applyDrills n (drillDown extId m).1

/-- Drill-down immediately followed by back-navigation. -/
def drillBack (ext : Ext) (m : Model) : Model :=
  goBack ext (drillDown ext m).1

/-- The model after reducing one key event. -/
def keyRes (ext : Ext) (m : Model) (k : Key) : Model :=
  (update ext m (.key k)).1

/-- The cursor-movement keys outside the modal editor that C2 ranges
over. -/
def cursorMoveKeys : List Key := [.up, .down, .pgup, .pgdown, .homeKey, .endKey]

/-- A single-column model whose active column has no items (reachable:
a Metadata column whose body wrapped to zero lines). -/
def mC2 : Model :=
  {initialModel DefaultServices with
    columns := [{emptyColumn with items := [], height := 5}], activeColumn := 0}

/-- A single-column model with one item and the zero-value height 0
(the state of every column before the first window-size event). -/
def mC2b : Model :=
  {initialModel DefaultServices with
    columns := [{emptyColumn with items := ["a"], height := 0}], activeColumn := 0}

/-- A modal-editor state whose column cursor sits at the end of a long
line, with a shorter line above. -/
def m7 : Model :=
  {initialModel DefaultServices with
    modalEditor := true, modalContent := ["ab", "wxyz"],
    modalCursor := 1, modalColCursor := 4, modalScroll := 0, height := 30}

/-- A stack holding a Details column and an open modal buffer with
fresh text, about to receive a save-success event. -/
def m6 : Model :=
  {initialModel DefaultServices with
    modalEditor := true, modalContent := ["committed"], modalOperation := "update",
    columns := [{emptyColumn with
      title := "Details", isDetails := true,
      items := ["old line"], entities := [[("ID", Value.vstr "1")]]}],
    activeColumn := 0}

/-- An open modal buffer holding text that does not parse as JSON. -/
def m5w : Model :=
  {initialModel DefaultServices with
    modalEditor := true, modalContent := ["not json"], modalOperation := "update"}

/-- A stack with a Metadata column and no column titled Products. -/
def m4 : Model :=
  {initialModel DefaultServices with
    columns := [{emptyColumn with title := "OData Services", items := ["x"]},
                {emptyColumn with title := "EntitySets", items := ["y"]},
                {emptyColumn with
                  title := "Metadata", isDetails := true, items := ["meta line"]}],
    activeColumn := 2}

/-- A stack with neither an EntitySets column nor any column matching a
Products entities event. -/
def m4w : Model :=
  {initialModel DefaultServices with
    columns := [{emptyColumn with title := "OData Services", items := ["x"]}]}

/-- A Level-2 column titled Products awaiting its records. -/
def c8w : Column := {emptyColumn with title := "Products"}

/-- A model holding only the Products column. -/
def m8w : Model := {initialModel DefaultServices with columns := [c8w]}

/-- Ten loaded records. -/
def ents8 : List Entity := List.replicate 10 [("ID", Value.vstr "7")]

/-- A single-column model with two items, for exercising cursor
movement. -/
def m2w : Model :=
  {initialModel DefaultServices with
    columns := [{emptyColumn with items := ["a", "b"], height := 5}], activeColumn := 0}

/-- What C2 (amended) asserts of one cursor-movement key event: the
result is the same model with only the active column's cursor and
scrollOffset rewritten; on a non-empty column the new cursor is within
[0, len items - 1]; on an empty column the cursor stays 0 - except for
pgdown, which sets it to len(items)-1 = -1. -/
def C2Conclusion (ext : Ext) (m : Model) (k : Key) : Prop :=
  let res := keyRes ext m k
  let c2 := activeCol res
  let cNew : Column :=
    {activeCol m with cursor := c2.cursor, scrollOffset := c2.scrollOffset}
  (res = {m with columns := m.columns.set m.activeColumn cNew})
  ∧ ((activeCol m).items ≠ [] → 0 ≤ c2.cursor ∧ c2.cursor < intLen (activeCol m).items)
  ∧ ((activeCol m).items = [] → k ≠ .pgdown → c2.cursor = 0)
  ∧ ((activeCol m).items = [] → k = .pgdown → c2.cursor = -1)

end ONav

namespace ONav

/- ------------------------------------------------------------------ -/
/- Helper lemmas                                                      -/
/- ------------------------------------------------------------------ -/

theorem updateFirst_of_none {p : Column → Bool} {f : Column → Column} {cols : List Column}
    (h : ∀ c ∈ cols, p c = false) : updateFirst p f cols = cols := by
  induction cols with
  | nil => rfl
  | cons c rest ih =>
    simp only [updateFirst, h c (List.mem_cons_self c rest)]
    simp only [Bool.false_eq_true, if_false, List.cons.injEq, true_and]
    exact ih fun d hd => h d (List.mem_cons_of_mem _ hd)

theorem updateFirst_append_cons {p : Column → Bool} {f : Column → Column}
    (pre : List Column) (c : Column) (post : List Column)
    (hpre : ∀ d ∈ pre, p d = false) (hc : p c = true) :
    updateFirst p f (pre ++ c :: post) = pre ++ f c :: post := by
  induction pre with
  | nil => simp [updateFirst, hc]
  | cons d rest ih =>
    simp only [List.cons_append, updateFirst, hpre d (List.mem_cons_self d rest)]
    simp only [Bool.false_eq_true, if_false, List.cons.injEq, true_and]
    exact ih fun x hx => hpre x (List.mem_cons_of_mem _ hx)

theorem lookupField_perm {e1 e2 : Entity} (h : e1.Perm e2) :
    (e1.map Prod.fst).Nodup → ∀ k, lookupField e1 k = lookupField e2 k := by
  induction h with
  | nil => intro _ _; rfl
  | cons x _ ih =>
    intro hnd k
    obtain ⟨a, v⟩ := x
    simp only [List.map_cons, List.nodup_cons] at hnd
    simp only [lookupField]
    split
    · rfl
    · exact ih hnd.2 k
  | swap x y l =>
    intro hnd k
    obtain ⟨a, va⟩ := x
    obtain ⟨b, vb⟩ := y
    simp only [List.map_cons, List.nodup_cons, List.mem_cons] at hnd
    have hba : b ≠ a := fun hh => hnd.1 (Or.inl hh)
    simp only [lookupField]
    by_cases h1 : k = b <;> by_cases h2 : k = a
    · exact absurd (h1.symm.trans h2) hba
    · simp [h1, h2, hba]
    · simp [h1, h2, hba, Ne.symm hba]
    · simp [h1, h2]
  | trans h1 _ ih1 ih2 =>
    intro hnd k
    have hnd2 := (h1.map Prod.fst).nodup hnd
    exact (ih1 hnd k).trans (ih2 hnd2 k)

theorem metadataKey_perm {e1 e2 : Entity} (h : e1.Perm e2)
    (hnd : (e1.map Prod.fst).Nodup) : metadataKey e1 = metadataKey e2 := by
  unfold metadataKey getObj
  rw [lookupField_perm h hnd "__metadata"]

theorem conventionalKey_perm {e1 e2 : Entity} (h : e1.Perm e2)
    (hnd : (e1.map Prod.fst).Nodup) : conventionalKey e1 = conventionalKey e2 := by
  unfold conventionalKey
  congr 1
  funext f
  rw [lookupField_perm h hnd f]

end ONav


namespace ONav

/- ------------------------------------------------------------------ -/
/- C9: record key extraction stages                                   -/
/- ------------------------------------------------------------------ -/

/-- C9 counterexample: a record with neither embedded metadata nor a
conventional key field still yields a key (from its only field), where
the claim - and the spec-faithful specKeyExtraction - say key extraction
must fail with the empty result. -/
theorem c9_counterexample :
    metadataKey [("Foo", Value.vstr "bar")] = none
    ∧ conventionalKey [("Foo", Value.vstr "bar")] = none
    ∧ specKeyExtraction [("Foo", Value.vstr "bar")] = ""
    ∧ extractEntityKey [("Foo", Value.vstr "bar")] ≠ "" := by
  refine ⟨rfl, by decide, rfl, by decide⟩

theorem fallbackScan_first (p : String × Value) (post : Entity)
    (hp : fallbackQualifies p = true) :
    ∀ pre : Entity, (∀ q ∈ pre, fallbackQualifies q = false) →
      fallbackScan (pre ++ p :: post)
        = some (match p.2 with
                | .vstr s => if s ≠ "" then sq ++ s ++ sq else goFormatValue (.vstr s)
                | v => goFormatValue v) := by
  intro pre
  induction pre with
  | nil =>
    intro _
    simp [fallbackScan, hp]
  | cons q rest ih =>
    intro hpre
    have hq := hpre q (List.mem_cons_self q rest)
    have ih2 := ih fun x hx => hpre x (List.mem_cons_of_mem _ hx)
    simp [fallbackScan] at ih2
    simp [fallbackScan, hq]
    exact ih2

/-- C9 (amended): extractEntityKey prefers the embedded metadata key;
failing that, the first conventional key field; otherwise the record's
remaining fields are scanned in iteration order and the FIRST qualifying
field (non-nil, not "__"-prefixed, name not containing "date")
determines the result: its value quoted when it is a non-empty string,
its %v rendering otherwise - so a qualifying empty-string field yields
the empty key; and when no field at all qualifies, the result is the
empty key.  (The claim as frozen said the last-resort scan does not
exist.) -/
theorem c9_key_extraction_stages (e : Entity) :
    (∀ k, metadataKey e = some k → extractEntityKey e = k)
    ∧ (metadataKey e = none → ∀ k, conventionalKey e = some k → extractEntityKey e = k)
    ∧ (metadataKey e = none → conventionalKey e = none →
        ∀ pre p post, e = pre ++ p :: post →
          (∀ q ∈ pre, fallbackQualifies q = false) → fallbackQualifies p = true →
          extractEntityKey e
            = (match p.2 with
               | .vstr s => if s ≠ "" then sq ++ s ++ sq else goFormatValue (.vstr s)
               | v => goFormatValue v))
    ∧ ((∀ p ∈ e, fallbackQualifies p = false) → metadataKey e = none →
        conventionalKey e = none → extractEntityKey e = "") := by
  refine ⟨?_, ?_, ?_, ?_⟩
  · intro k h
    simp [extractEntityKey, h]
  · intro h1 k h2
    simp [extractEntityKey, h1, h2]
  · intro h1 h2 pre p post hsplit hpre hp
    subst hsplit
    have hf := fallbackScan_first p post hp pre hpre
    simp [extractEntityKey, h1, h2, hf]
  · intro hq h1 h2
    have hfs : fallbackScan e = none := by
      unfold fallbackScan
      exact List.findSome?_eq_none_iff.mpr fun p hp => by simp [hq p hp]
    simp [extractEntityKey, h1, h2, hfs]

/-- C9 witness: the metadata key of a concrete record is returned
verbatim. -/
theorem c9_key_extraction_stages_witness :
    metadataKey [("__metadata", Value.vobj [("id", Value.vstr "http://h/S(3)")])] = some "3"
    ∧ extractEntityKey [("__metadata", Value.vobj [("id", Value.vstr "http://h/S(3)")])] = "3" :=
  ⟨by decide,
   (c9_key_extraction_stages [("__metadata", Value.vobj [("id", Value.vstr "http://h/S(3)")])]).1
     "3" (by decide)⟩

/- ------------------------------------------------------------------ -/
/- C10: determinism of key extraction                                 -/
/- ------------------------------------------------------------------ -/

/-- C10 counterexample: two iteration orders of the same two-field map
(a permutation pair) make extractEntityKey return different keys - the
last-resort scan takes whichever qualifying field the map yields
first. -/
theorem c10_counterexample :
    ([("Foo", Value.vstr "a"), ("Goo", Value.vstr "b")] : Entity).Perm
      [("Goo", Value.vstr "b"), ("Foo", Value.vstr "a")]
    ∧ extractEntityKey [("Foo", Value.vstr "a"), ("Goo", Value.vstr "b")]
        ≠ extractEntityKey [("Goo", Value.vstr "b"), ("Foo", Value.vstr "a")] :=
  ⟨List.Perm.swap _ _ _, by decide⟩

/-- C10 (amended): key extraction is independent of the map iteration
order whenever the key is determined by the first two stages (embedded
metadata or a conventional key field), since those stages only perform
keyed lookups; only the last-resort scan is order-sensitive. -/
theorem c10_key_extraction_deterministic {e1 e2 : Entity} (h : e1.Perm e2)
    (hnd : (e1.map Prod.fst).Nodup)
    (h12 : metadataKey e1 ≠ none ∨ conventionalKey e1 ≠ none) :
    extractEntityKey e1 = extractEntityKey e2 := by
  have hm := metadataKey_perm h hnd
  have hc := conventionalKey_perm h hnd
  unfold extractEntityKey
  rw [← hm, ← hc]
  rcases hmk : metadataKey e1 with _ | k
  · rcases hck : conventionalKey e1 with _ | k
    · rcases h12 with h12 | h12
      · exact absurd hmk h12
      · exact absurd hck h12
    · simp [hmk, hck]
  · simp [hmk]

/-- C10 witness: a record keyed by a conventional field gives the same
key under both iteration orders. -/
theorem c10_key_extraction_deterministic_witness :
    ([("ID", Value.vstr "1"), ("X", Value.vstr "2")] : Entity).Perm
      [("X", Value.vstr "2"), ("ID", Value.vstr "1")]
    ∧ extractEntityKey [("ID", Value.vstr "1"), ("X", Value.vstr "2")]
        = extractEntityKey [("X", Value.vstr "2"), ("ID", Value.vstr "1")] :=
  ⟨List.Perm.swap _ _ _,
   c10_key_extraction_deterministic (List.Perm.swap _ _ _) (by decide) (Or.inr (by decide))⟩

end ONav

namespace ONav

/- ------------------------------------------------------------------ -/
/- C5: invalid commit keeps the modal editor open                     -/
/- ------------------------------------------------------------------ -/

/-- C5: when the modal buffer's text fails to deserialize as one JSON
record, the commit leaves the editor open with every modal field
unchanged, appends only the parse-error log line, and dispatches no
request. -/
theorem c5_invalid_commit_keeps_editing (ext : Ext) (m : Model) (e : String)
    (hmodal : m.modalEditor = true)
    (hparse : ext.parseRecord (String.intercalate "\n" m.modalContent) = .error e) :
    saveModalChanges ext m = ({m with logs := m.logs ++ ["Invalid JSON: " ++ e]}, none)
    ∧ (saveModalChanges ext m).1.modalEditor = true
    ∧ (saveModalChanges ext m).1.modalContent = m.modalContent
    ∧ (saveModalChanges ext m).1.modalCursor = m.modalCursor
    ∧ (saveModalChanges ext m).1.modalColCursor = m.modalColCursor
    ∧ (saveModalChanges ext m).1.modalScroll = m.modalScroll
    ∧ (saveModalChanges ext m).1.modalOperation = m.modalOperation
    ∧ (saveModalChanges ext m).2 = none := by
  have h : saveModalChanges ext m = ({m with logs := m.logs ++ ["Invalid JSON: " ++ e]}, none) := by
    unfold saveModalChanges
    rw [hparse]
    simp [hmodal]
  refine ⟨h, ?_, ?_, ?_, ?_, ?_, ?_, ?_⟩ <;> rw [h]
  exact hmodal

/-- C5 witness: a concrete open buffer with unparseable text is left
open with only the log line appended. -/
theorem c5_invalid_commit_keeps_editing_witness :
    m5w.modalEditor = true
    ∧ extId.parseRecord (String.intercalate "\n" m5w.modalContent) = .error "parse failed"
    ∧ saveModalChanges extId m5w
        = ({m5w with logs := m5w.logs ++ ["Invalid JSON: parse failed"]}, none) :=
  ⟨rfl, rfl, (c5_invalid_commit_keeps_editing extId m5w "parse failed" rfl rfl).1⟩

/- ------------------------------------------------------------------ -/
/- C6: save-success closes the buffer but does not touch the columns  -/
/- ------------------------------------------------------------------ -/

/-- C6 counterexample: reducing a save-success event on a stack whose
Details column shows "old line" while the buffer holds "committed"
closes the modal but leaves every column - including Details - exactly
as it was; the committed text is nowhere installed. -/
theorem c6_counterexample :
    m6.modalContent = ["committed"]
    ∧ ((update extId m6 (.saveSuccess "update" "Products" "Entity updated successfully")).1.columns.map
        (fun c => c.items)) = [["old line"]]
    ∧ (update extId m6 (.saveSuccess "update" "Products" "Entity updated successfully")).1.modalEditor
        = false
    ∧ (["old line"] : List String) ≠ ["committed"] := by
  refine ⟨rfl, rfl, rfl, by decide⟩

/-- C6 (amended): a save-success event closes and resets the modal
editor, clears the loading flag and logs the success - and changes
nothing else: in particular every column, the RecordDetail column
included, is left unchanged (the claim's "replaces the RecordDetail
column's content" does not happen). -/
theorem c6_save_success_closes_modal (ext : Ext) (m : Model) (op es msg : String) :
    (update ext m (.saveSuccess op es msg)).1 =
      {m with loading := false, modalEditor := false, modalContent := [], modalCursor := 0,
              modalScroll := 0, modalColCursor := 0, modalOperation := "",
              logs := m.logs ++ ["SUCCESS: " ++ op ++ " operation completed - " ++ msg]}
    ∧ (update ext m (.saveSuccess op es msg)).1.columns = m.columns
    ∧ (update ext m (.saveSuccess op es msg)).2 = none :=
  ⟨rfl, rfl, rfl⟩

/- ------------------------------------------------------------------ -/
/- C4: stale async completion events                                  -/
/- ------------------------------------------------------------------ -/

/-- C4 counterexample: a stale entities event for "Products" - whose
target column no longer exists - still rewrites the "Metadata" column,
because the handler's matching loop also accepts any column titled
Metadata. -/
theorem c4_counterexample :
    (∀ c ∈ m4.columns, c.title ≠ "Products")
    ∧ ((update extId m4 (.entities "Products" [[("ID", Value.vstr "1")]] false)).1.columns.map
        (fun c => c.items)) = [["x"], ["y"], ["1"]]
    ∧ m4.columns.map (fun c => c.items) = [["x"], ["y"], ["meta line"]] := by
  refine ⟨by decide, rfl, rfl⟩

/-- C4 (amended): an async completion event whose target matches no
column leaves every column unchanged - provided, for an entities event,
that additionally no column is titled "Metadata" (the handler also
matches that title).  For an entity-sets event the target is the column
titled "EntitySets". -/
theorem c4_stale_events_drop (ext : Ext) (m : Model) (names : List String)
    (name : String) (ents : List Entity) (hasMore : Bool)
    (hsets : ∀ c ∈ m.columns, c.title ≠ "EntitySets")
    (hents : ∀ c ∈ m.columns, c.title ≠ name ∧ c.title ≠ "Metadata") :
    (update ext m (.entitySets names)).1.columns = m.columns
    ∧ (update ext m (.entities name ents hasMore)).1.columns = m.columns := by
  constructor
  · show (handleEntitySets m names).columns = m.columns
    unfold handleEntitySets
    exact updateFirst_of_none fun c hc => by simp [hsets c hc]
  · show (handleEntities ext m name ents hasMore).columns = m.columns
    unfold handleEntities
    exact updateFirst_of_none fun c hc => by simp [(hents c hc).1, (hents c hc).2]

/-- C4 witness: a concrete one-column stack absorbs both stale events
unchanged. -/
theorem c4_stale_events_drop_witness :
    (update extId m4w (.entitySets ["A"])).1.columns = m4w.columns
    ∧ (update extId m4w (.entities "Products" [] false)).1.columns = m4w.columns :=
  c4_stale_events_drop extId m4w ["A"] "Products" [] false (by decide) (by decide)

end ONav

namespace ONav

/- ------------------------------------------------------------------ -/
/- C8: pagination marker and hasMore                                  -/
/- ------------------------------------------------------------------ -/

theorem getEntitiesWithCount_ten (fetched : List Entity) :
    (getEntitiesWithCount fetched 10).1.length ≤ 10
    ∧ ((getEntitiesWithCount fetched 10).2 = true ↔ 10 < fetched.length) := by
  unfold getEntitiesWithCount
  have h10 : ¬ ((10 : Int) ≤ 0) := by norm_num
  by_cases h : (10 : Int) < (fetched.length : Int)
  · have hn : 10 < fetched.length := by exact_mod_cast h
    simp [h10, h, hn, List.length_take]
  · have hn : ¬ 10 < fetched.length := by
      intro hh
      exact h (by exact_mod_cast hh)
    simp [h10, h, hn]
    omega

/-- C8: when the first column matching an entities event (for a
non-Metadata entity set) receives exactly 10 records with hasMore, its
items become the 10 formatted records plus the literal "[...more
items]" marker - 11 entries, the marker 11th - and its stored records
list is the 10 records; and the list-records post-processing at limit
10 returns at most 10 records with hasMore exactly when the limit+1
fetch returned more than 10. -/
theorem c8_pagination (ext : Ext) (m : Model) (name : String)
    (pre post : List Column) (c : Column) (ents : List Entity)
    (hcols : m.columns = pre ++ c :: post)
    (hpre : ∀ d ∈ pre, (d.title == name || d.title == "Metadata") = false)
    (hc : c.title = name) (hname : name ≠ "Metadata")
    (hlen : ents.length = 10) :
    ((update ext m (.entities name ents true)).1.columns
        = pre ++ {c with entities := ents,
                         items := ents.map formatEntityForDisplay ++ ["[...more items]"]} :: post)
    ∧ (ents.map formatEntityForDisplay ++ ["[...more items]"]).length = 11
    ∧ (ents.map formatEntityForDisplay ++ ["[...more items]"])[10]? = some "[...more items]"
    ∧ ents.length = 10
    ∧ (∀ fetched : List Entity,
        (getEntitiesWithCount fetched 10).1.length ≤ 10
        ∧ ((getEntitiesWithCount fetched 10).2 = true ↔ 10 < fetched.length)) := by
  refine ⟨?_, ?_, ?_, hlen, ?_⟩
  · show (handleEntities ext m name ents true).columns = _
    unfold handleEntities
    simp only [hcols]
    rw [updateFirst_append_cons pre c post hpre (by simp [hc])]
    have hne : (ents.map formatEntityForDisplay ++ ["[...more items]"]).isEmpty = false := by
      simp [List.isEmpty_iff]
    have hm : (name == "Metadata") = false := by simp [hname]
    simp [hm, hne]
  · simp [hlen]
  · rw [List.getElem?_append_right (by simp [hlen])]
    simp [hlen]
  · exact fun fetched => getEntitiesWithCount_ten fetched

/-- C8 witness: ten concrete records with hasMore on a concrete Products
column. -/
theorem c8_pagination_witness :
    ents8.length = 10
    ∧ (update extId m8w (.entities "Products" ents8 true)).1.columns
        = [] ++ {c8w with entities := ents8,
                          items := ents8.map formatEntityForDisplay ++ ["[...more items]"]} :: []
    ∧ (ents8.map formatEntityForDisplay ++ ["[...more items]"]).length = 11 := by
  have h := c8_pagination extId m8w "Products" [] [] c8w ents8 rfl (by simp) rfl
    (by decide) (by decide)
  exact ⟨by decide, h.1, h.2.1⟩

/- ------------------------------------------------------------------ -/
/- C1: drill-down at a level-3 column destroys the focus invariant    -/
/- ------------------------------------------------------------------ -/

/-- C1: after three drill-down events from the initial model exactly
one column is focused, but the fourth drill-down (Enter on the level-3
Details column) clears every focused flag and returns early, leaving a
four-column stack with activeColumn 3 and ZERO focused columns -
refuting the claimed invariant that exactly one column (the one at
activeColumn) is focused after every drill/back sequence. -/
theorem c1_level3_drill_clears_focus :
    ((applyDrills 3 (initialModel DefaultServices)).columns.filter (fun c => c.focused)).length = 1
    ∧ ((applyDrills 4 (initialModel DefaultServices)).columns.filter (fun c => c.focused)).length = 0
    ∧ (applyDrills 4 (initialModel DefaultServices)).activeColumn = 3
    ∧ (applyDrills 4 (initialModel DefaultServices)).columns.length = 4 := by
  decide

/- ------------------------------------------------------------------ -/
/- C2 counterexample: pgdown on an empty column                       -/
/- ------------------------------------------------------------------ -/

/-- C2 counterexample, two concrete divergences.  First: a pgdown key
event on a column with no items (outside both editors) sets the cursor
to len(items)-1 = -1 rather than leaving it at 0 as the claim requires.
Second: a pgup key event on a one-item column whose stored height is
the zero value 0 (every column before the first window-size event)
computes pageSize = height-2 = -2 and moves the cursor to 0-(-2) = 2,
outside the claimed range [0, len(items)-1] = [0, 0]. -/
theorem c2_counterexample :
    ((activeCol mC2).items = []
      ∧ mC2.editMode = false
      ∧ mC2.modalEditor = false
      ∧ (activeCol (keyRes extId mC2 .pgdown)).cursor = -1
      ∧ (activeCol (keyRes extId mC2 .pgdown)).cursor ≠ 0)
    ∧ ((activeCol mC2b).items = ["a"]
      ∧ mC2b.editMode = false
      ∧ mC2b.modalEditor = false
      ∧ (activeCol mC2b).height = 0
      ∧ (activeCol (keyRes extId mC2b .pgup)).cursor = 2
      ∧ ¬ ((activeCol (keyRes extId mC2b .pgup)).cursor
            ≤ intLen (activeCol mC2b).items - 1)) := by
  refine ⟨⟨rfl, rfl, rfl, by decide, by decide⟩,
          ⟨rfl, rfl, rfl, rfl, by decide, by decide⟩⟩

/- ------------------------------------------------------------------ -/
/- C7: modal paging skips the column-cursor clamp                     -/
/- ------------------------------------------------------------------ -/

/-- C7: in the modal editor, pgup moves the line cursor from line 1 to
line 0 but leaves modalColCursor at 4, exceeding the new current line
"ab" whose length is 2 - the claimed clamp 0 <= modalColCursor <=
len(modalContent[modalCursor]) is not applied by pgup/pgdown (a
subsequent character insert would slice line[:4] out of range and
panic). -/
theorem c7_modal_pgup_skips_clamp :
    (keyRes extId m7 .pgup).modalCursor = 0
    ∧ (keyRes extId m7 .pgup).modalColCursor = 4
    ∧ strLen (lineAt (keyRes extId m7 .pgup).modalContent 0) = 2
    ∧ ¬((keyRes extId m7 .pgup).modalColCursor
          ≤ strLen (lineAt (keyRes extId m7 .pgup).modalContent
              (keyRes extId m7 .pgup).modalCursor)) := by
  refine ⟨by decide, by decide, by decide, by decide⟩

end ONav

namespace ONav

/- ------------------------------------------------------------------ -/
/- SizeOnly projection lemmas and stack-surgery lemmas (for C3)       -/
/- ------------------------------------------------------------------ -/

theorem sizeOnly_activeColumn {f : Model → Model} (hf : SizeOnly f) (m : Model) :
    (f m).activeColumn = m.activeColumn := by
  have h := congrArg Model.activeColumn (hf m)
  simpa [stripModel] using h

theorem sizeOnly_cols_proj {α : Type} (g : Column → α)
    (hg : ∀ c, g (stripSizes c) = g c) {f : Model → Model} (hf : SizeOnly f)
    (m : Model) (i : Nat) :
    ((f m).columns[i]?).map g = (m.columns[i]?).map g := by
  have h := congrArg Model.columns (hf m)
  simp only [stripModel] at h
  have h2 := congrArg (fun l => l[i]?) h
  simp only [List.getElem?_map] at h2
  have h3 := congrArg (fun o => o.map g) h2
  have hcomp : (g ∘ stripSizes) = g := funext hg
  simp only [Option.map_map, hcomp] at h3
  exact h3

theorem refocusFrom_getElem? (a : Nat) (s : Nat) (cols : List Column) (i : Nat) :
    (refocusFrom a s cols)[i]? = (cols[i]?).map (fun c => {c with focused := s + i == a}) := by
  induction cols generalizing s i with
  | nil => simp [refocusFrom]
  | cons c rest ih =>
    cases i with
    | zero => simp [refocusFrom]
    | succ n =>
      have harith : s + 1 + n = s + (n + 1) := by omega
      simp [refocusFrom, ih (s + 1) n, harith]

theorem setFocusTrue_getElem?_ne (cols : List Column) (i j : Nat) (h : j ≠ i) :
    (setFocusTrue cols i)[j]? = cols[j]? := by
  unfold setFocusTrue
  rcases hc : cols.get? i with _ | c
  · simp [hc]
  · have h2 : i ≠ j := fun hh => h hh.symm
    simp only [hc]
    simp [List.getElem?_set, h2]

theorem push_proj (ext : Ext) (hres : SizeOnly ext.resize) {α : Type} (g : Column → α)
    (hgs : ∀ c, g (stripSizes c) = g c)
    (hgb : ∀ c b, g {c with focused := b} = g c)
    (mPre : Model) (nc : Column) (cols0 : List Column) (a : Nat)
    (hA : mPre.activeColumn = a)
    (hC : mPre.columns = (clearFocus cols0).take (a + 1))
    (hlen : a < cols0.length) :
    (pushColumn ext mPre nc).activeColumn = a + 1
    ∧ ((pushColumn ext mPre nc).columns[a]?).map g = (cols0[a]?).map g := by
  constructor
  · unfold pushColumn
    rw [sizeOnly_activeColumn hres]
    simp [hA]
  · unfold pushColumn
    rw [sizeOnly_cols_proj g hgs hres]
    simp only [hA, hC]
    rw [setFocusTrue_getElem?_ne _ _ _ (by omega)]
    have hlen2 : a < ((clearFocus cols0).take (a + 1)).length := by
      simp only [clearFocus, List.length_take, List.length_map]
      omega
    rw [List.getElem?_append_left hlen2]
    rw [List.getElem?_take_of_lt (by omega)]
    rw [show clearFocus cols0 = cols0.map (fun c => {c with focused := false}) from rfl]
    rw [List.getElem?_map, Option.map_map]
    exact congrArg (fun h => Option.map h cols0[a]?) (funext fun c => hgb c false)

end ONav

namespace ONav

theorem drillDown_keeps (ext : Ext) (hres : SizeOnly ext.resize) {α : Type} (g : Column → α)
    (hgs : ∀ c, g (stripSizes c) = g c)
    (hgb : ∀ c b, g {c with focused := b} = g c)
    (m : Model)
    (hact : m.activeColumn < m.columns.length)
    (hcur : (m.columns.getD m.activeColumn default).cursor
              < intLen (m.columns.getD m.activeColumn default).items)
    (hlev : m.activeColumn ≤ 2) :
    (drillDown ext m).1.activeColumn = m.activeColumn + 1
    ∧ ((drillDown ext m).1.columns[m.activeColumn]?).map g
        = (m.columns[m.activeColumn]?).map g := by
  have hg1 : ¬ (m.columns.length ≤ m.activeColumn) := Nat.not_le.mpr hact
  have hg2 : ¬ (intLen (m.columns.getD m.activeColumn default).items
                  ≤ (m.columns.getD m.activeColumn default).cursor) := not_le.mpr hcur
  simp only [drillDown]
  rw [if_neg hg1, if_neg hg2]
  by_cases h0 : m.activeColumn = 0
  · rw [if_pos h0]
    constructor
    · split
      · exact (push_proj ext hres g hgs hgb _ _ m.columns m.activeColumn (by rfl) (by rfl) hact).1
      · exact (push_proj ext hres g hgs hgb _ _ m.columns m.activeColumn (by rfl) (by rfl) hact).1
    · split
      · exact (push_proj ext hres g hgs hgb _ _ m.columns m.activeColumn (by rfl) (by rfl) hact).2
      · exact (push_proj ext hres g hgs hgb _ _ m.columns m.activeColumn (by rfl) (by rfl) hact).2
  · rw [if_neg h0]
    by_cases h1 : m.activeColumn = 1
    · rw [if_pos h1]
      constructor
      · split
        · exact (push_proj ext hres g hgs hgb _ _ m.columns m.activeColumn (by rfl) (by rfl) hact).1
        · exact (push_proj ext hres g hgs hgb _ _ m.columns m.activeColumn (by rfl) (by rfl) hact).1
      · split
        · exact (push_proj ext hres g hgs hgb _ _ m.columns m.activeColumn (by rfl) (by rfl) hact).2
        · exact (push_proj ext hres g hgs hgb _ _ m.columns m.activeColumn (by rfl) (by rfl) hact).2
    · rw [if_neg h1]
      by_cases h2 : m.activeColumn = 2
      · rw [if_pos h2]
        exact ⟨(push_proj ext hres g hgs hgb _ _ m.columns m.activeColumn (by rfl) (by rfl) hact).1,
               (push_proj ext hres g hgs hgb _ _ m.columns m.activeColumn (by rfl) (by rfl) hact).2⟩
      · omega

theorem goBack_proj (ext : Ext) (hres : SizeOnly ext.resize) {α : Type} (g : Column → α)
    (hgs : ∀ c, g (stripSizes c) = g c)
    (hgb : ∀ c b, g {c with focused := b} = g c)
    (m1 : Model) (i : Nat) (h0 : 0 < m1.activeColumn) (hi : i < m1.activeColumn) :
    (goBack ext m1).activeColumn = m1.activeColumn - 1
    ∧ ((goBack ext m1).columns[i]?).map g = (m1.columns[i]?).map g := by
  simp only [goBack]
  rw [if_pos h0]
  constructor
  · rw [sizeOnly_activeColumn hres]
  · rw [sizeOnly_cols_proj g hgs hres]
    simp only [refocus]
    rw [refocusFrom_getElem?]
    rw [List.getElem?_take_of_lt hi]
    rw [Option.map_map]
    exact congrArg (fun h => Option.map h m1.columns[i]?) (funext fun c => hgb c _)

/-- C3: when a drill-down succeeds (valid active column, cursor inside
items, level at most 2, so a column is appended), drilling down and
immediately navigating back restores the previously active column's
items, cursor and scrollOffset, and the active index. -/
theorem c3_drill_back_roundtrip (ext : Ext) (hres : SizeOnly ext.resize) (m : Model)
    (hact : m.activeColumn < m.columns.length)
    (_hcur0 : 0 ≤ (activeCol m).cursor)
    (hcur : (activeCol m).cursor < intLen (activeCol m).items)
    (hlev : m.activeColumn ≤ 2) :
    (drillBack ext m).activeColumn = m.activeColumn
    ∧ ((drillBack ext m).columns[m.activeColumn]?).map (fun c => c.items)
        = (m.columns[m.activeColumn]?).map (fun c => c.items)
    ∧ ((drillBack ext m).columns[m.activeColumn]?).map (fun c => c.cursor)
        = (m.columns[m.activeColumn]?).map (fun c => c.cursor)
    ∧ ((drillBack ext m).columns[m.activeColumn]?).map (fun c => c.scrollOffset)
        = (m.columns[m.activeColumn]?).map (fun c => c.scrollOffset) := by
  unfold activeCol at hcur
  obtain ⟨hA1, hI1⟩ := drillDown_keeps ext hres (fun c => c.items)
    (fun _ => rfl) (fun _ _ => rfl) m hact hcur hlev
  obtain ⟨_, hC1⟩ := drillDown_keeps ext hres (fun c => c.cursor)
    (fun _ => rfl) (fun _ _ => rfl) m hact hcur hlev
  obtain ⟨_, hS1⟩ := drillDown_keeps ext hres (fun c => c.scrollOffset)
    (fun _ => rfl) (fun _ _ => rfl) m hact hcur hlev
  have h0 : 0 < (drillDown ext m).1.activeColumn := by omega
  have hi : m.activeColumn < (drillDown ext m).1.activeColumn := by omega
  obtain ⟨hA2, hI2⟩ := goBack_proj ext hres (fun c => c.items)
    (fun _ => rfl) (fun _ _ => rfl) (drillDown ext m).1 m.activeColumn h0 hi
  obtain ⟨_, hC2⟩ := goBack_proj ext hres (fun c => c.cursor)
    (fun _ => rfl) (fun _ _ => rfl) (drillDown ext m).1 m.activeColumn h0 hi
  obtain ⟨_, hS2⟩ := goBack_proj ext hres (fun c => c.scrollOffset)
    (fun _ => rfl) (fun _ _ => rfl) (drillDown ext m).1 m.activeColumn h0 hi
  unfold drillBack
  refine ⟨?_, ?_, ?_, ?_⟩
  · rw [hA2, hA1]
    omega
  · rw [hI2, hI1]
  · rw [hC2, hC1]
  · rw [hS2, hS1]

/-- C3 witness: drill from the initial service column and go back; the
service column's items, cursor and scroll offset are restored. -/
theorem c3_drill_back_roundtrip_witness :
    (drillBack extId (initialModel DefaultServices)).activeColumn = 0
    ∧ ((drillBack extId (initialModel DefaultServices)).columns[0]?).map (fun c => c.items)
        = (((initialModel DefaultServices).columns[0]?).map (fun c => c.items))
    ∧ ((drillBack extId (initialModel DefaultServices)).columns[0]?).map (fun c => c.cursor)
        = (((initialModel DefaultServices).columns[0]?).map (fun c => c.cursor))
    ∧ ((drillBack extId (initialModel DefaultServices)).columns[0]?).map (fun c => c.scrollOffset)
        = (((initialModel DefaultServices).columns[0]?).map (fun c => c.scrollOffset)) :=
  c3_drill_back_roundtrip extId (fun _ => rfl) (initialModel DefaultServices)
    (by decide) (by decide) (by decide) (by decide)

end ONav

namespace ONav

/- ------------------------------------------------------------------ -/
/- C2 apparatus                                                       -/
/- ------------------------------------------------------------------ -/

theorem fst_ite_pair {c : Prop} [Decidable c] (x : Model) (f g : Option Cmd) :
    (if c then (x, f) else (x, g)).1 = x := by
  split <;> rfl

theorem set_activeCol_self (m : Model) (hact : m.activeColumn < m.columns.length) :
    m.columns.set m.activeColumn (activeCol m) = m.columns := by
  unfold activeCol
  rw [List.getD_eq_getElem?_getD, List.getElem?_eq_getElem hact]
  apply List.ext_getElem?
  intro j
  rw [List.getElem?_set]
  split
  · next hij =>
      subst hij
      simp [hact, List.getElem?_eq_getElem]
  · rfl

theorem activeCol_setActiveCol (m : Model) (c : Column) (hact : m.activeColumn < m.columns.length) :
    activeCol (setActiveCol m c) = c := by
  unfold activeCol setActiveCol
  rw [List.getD_eq_getElem?_getD, List.getElem?_set]
  simp [hact]

theorem intLen_pos {items : List String} (hne : items ≠ []) : 0 < intLen items := by
  simp only [intLen, Int.ofNat_pos]
  exact List.length_pos.mpr hne

theorem emptyContra {C : Int} {items : List String} (he : items = [])
    (h2 : C < intLen items) (h1 : 0 ≤ C) : False := by
  rw [he] at h2
  simp only [intLen, List.length_nil, Int.ofNat_zero] at h2
  omega

theorem c2_pack (ext : Ext) (m : Model) (k : Key)
    (hact : m.activeColumn < m.columns.length) (cur scr : Int)
    (hres : keyRes ext m k = setActiveCol m {activeCol m with cursor := cur, scrollOffset := scr})
    (hb1 : (activeCol m).items ≠ [] → 0 ≤ cur ∧ cur < intLen (activeCol m).items)
    (hb2 : (activeCol m).items = [] → k ≠ .pgdown → cur = 0)
    (hb3 : (activeCol m).items = [] → k = .pgdown → cur = -1) :
    C2Conclusion ext m k := by
  have hcv : activeCol (keyRes ext m k)
      = {activeCol m with cursor := cur, scrollOffset := scr} := by
    rw [hres]
    exact activeCol_setActiveCol m _ hact
  simp only [C2Conclusion]
  refine ⟨?_, ?_, ?_, ?_⟩
  · rw [hcv, hres]
    rfl
  · intro hne
    rw [hcv]
    exact hb1 hne
  · intro he hkn
    rw [hcv]
    exact hb2 he hkn
  · intro he hke
    rw [hcv]
    exact hb3 he hke

theorem c2_pack_noop (ext : Ext) (m : Model) (k : Key)
    (hact : m.activeColumn < m.columns.length)
    (hres : keyRes ext m k = m)
    (hb1 : (activeCol m).items ≠ [] →
        0 ≤ (activeCol m).cursor ∧ (activeCol m).cursor < intLen (activeCol m).items)
    (hb2 : (activeCol m).items = [] → k ≠ .pgdown → (activeCol m).cursor = 0)
    (hb3 : (activeCol m).items = [] → k = .pgdown → (activeCol m).cursor = -1) :
    C2Conclusion ext m k := by
  have heta : ({activeCol m with
      cursor := (activeCol m).cursor,
      scrollOffset := (activeCol m).scrollOffset} : Column) = activeCol m := rfl
  have hcv : activeCol (keyRes ext m k) = activeCol m := by rw [hres]
  simp only [C2Conclusion]
  refine ⟨?_, ?_, ?_, ?_⟩
  · rw [hcv, hres, heta, set_activeCol_self m hact]
  · intro hne
    rw [hcv]
    exact hb1 hne
  · intro he hkn
    rw [hcv]
    exact hb2 he hkn
  · intro he hke
    rw [hcv]
    exact hb3 he hke

end ONav

namespace ONav

/-- C2 (amended): for each of the six cursor-movement keys outside the
modal editor (up, down, pgup, pgdown, home, end), on a model whose
active column is valid, whose stored height is at least 2, and whose
cursor satisfies the cursor invariant, the reduction changes only the
active column's cursor and scrollOffset; afterwards the cursor lies in
[0, len(items)-1] when items is non-empty, and equals 0 when items is
empty for every key except pgdown, which sets it to len(items)-1 = -1
(the claim said 0 there).  The height premise reflects the source's
unguarded pageSize = height-2 arithmetic. -/
theorem c2_cursor_move (ext : Ext) (m : Model) (k : Key)
    (hk : k ∈ cursorMoveKeys)
    (hmod : m.modalEditor = false)
    (hedit : m.editMode = false)
    (hact : m.activeColumn < m.columns.length)
    (hh : 2 ≤ (activeCol m).height)
    (hinv : (0 ≤ (activeCol m).cursor ∧ (activeCol m).cursor < intLen (activeCol m).items)
            ∨ ((activeCol m).items = [] ∧ (activeCol m).cursor = 0)) :
    C2Conclusion ext m k := by
  have hcol : activeCol m = m.columns[m.activeColumn] := by
    unfold activeCol
    rw [List.getD_eq_getElem?_getD, List.getElem?_eq_getElem hact]
    rfl
  simp only [cursorMoveKeys, List.mem_cons, List.not_mem_nil, or_false] at hk
  rcases hk with rfl | rfl | rfl | rfl | rfl | rfl
  · -- up
    by_cases hc : 0 < (activeCol m).cursor
    · by_cases hs : (activeCol m).cursor - 1 < (activeCol m).scrollOffset
      · refine c2_pack ext m _ hact ((activeCol m).cursor - 1) ((activeCol m).cursor - 1)
          ?_ ?_ ?_ ?_
        · unfold keyRes update plainKey
          rw [hcol] at hc hs
          simp [hmod, hedit, hact, hcol, hc, hs, fst_ite_pair]
        · intro hne
          rcases hinv with ⟨h1, h2⟩ | ⟨he, _⟩
          · omega
          · exact absurd he hne
        · intro he _
          rcases hinv with ⟨h1, h2⟩ | ⟨_, h3⟩
          · exact (emptyContra he h2 h1).elim
          · omega
        · intro he _
          rcases hinv with ⟨h1, h2⟩ | ⟨_, h3⟩
          · exact (emptyContra he h2 h1).elim
          · omega
      · refine c2_pack ext m _ hact ((activeCol m).cursor - 1) ((activeCol m).scrollOffset)
          ?_ ?_ ?_ ?_
        · unfold keyRes update plainKey
          rw [hcol] at hc hs
          simp [hmod, hedit, hact, hcol, hc, hs, fst_ite_pair]
        · intro hne
          rcases hinv with ⟨h1, h2⟩ | ⟨he, _⟩
          · omega
          · exact absurd he hne
        · intro he _
          rcases hinv with ⟨h1, h2⟩ | ⟨_, h3⟩
          · exact (emptyContra he h2 h1).elim
          · omega
        · intro he _
          rcases hinv with ⟨h1, h2⟩ | ⟨_, h3⟩
          · exact (emptyContra he h2 h1).elim
          · omega
    · refine c2_pack_noop ext m _ hact ?_ ?_ ?_ ?_
      · unfold keyRes update plainKey
        rw [hcol] at hc
        simp [hmod, hedit, hact, hc]
      · intro hne
        rcases hinv with ⟨h1, h2⟩ | ⟨he, _⟩
        · exact ⟨h1, h2⟩
        · exact absurd he hne
      · intro he _
        rcases hinv with ⟨h1, h2⟩ | ⟨_, h3⟩
        · exact (emptyContra he h2 h1).elim
        · exact h3
      · intro _ hke
        exact Key.noConfusion hke
  · -- down
    by_cases hc : (activeCol m).cursor < intLen (activeCol m).items - 1
    · by_cases hs : (activeCol m).scrollOffset + ((activeCol m).height - 2)
          ≤ (activeCol m).cursor + 1
      · refine c2_pack ext m _ hact ((activeCol m).cursor + 1)
            ((activeCol m).cursor + 1 - ((activeCol m).height - 2) + 1) ?_ ?_ ?_ ?_
        · unfold keyRes update plainKey
          rw [hcol] at hc hs
          simp [hmod, hedit, hact, hcol, hc, hs, fst_ite_pair]
        · intro hne
          rcases hinv with ⟨h1, h2⟩ | ⟨he, _⟩
          · omega
          · exact absurd he hne
        · intro he _
          have h0 : intLen (activeCol m).items = 0 := by rw [he]; rfl
          omega
        · intro he _
          have h0 : intLen (activeCol m).items = 0 := by rw [he]; rfl
          omega
      · refine c2_pack ext m _ hact ((activeCol m).cursor + 1) ((activeCol m).scrollOffset)
          ?_ ?_ ?_ ?_
        · unfold keyRes update plainKey
          rw [hcol] at hc hs
          simp [hmod, hedit, hact, hcol, hc, hs, fst_ite_pair]
        · intro hne
          rcases hinv with ⟨h1, h2⟩ | ⟨he, _⟩
          · omega
          · exact absurd he hne
        · intro he _
          have h0 : intLen (activeCol m).items = 0 := by rw [he]; rfl
          omega
        · intro he _
          have h0 : intLen (activeCol m).items = 0 := by rw [he]; rfl
          omega
    · refine c2_pack_noop ext m _ hact ?_ ?_ ?_ ?_
      · unfold keyRes update plainKey
        rw [hcol] at hc
        simp [hmod, hedit, hact, hc]
      · intro hne
        rcases hinv with ⟨h1, h2⟩ | ⟨he, _⟩
        · exact ⟨h1, h2⟩
        · exact absurd he hne
      · intro he _
        rcases hinv with ⟨h1, h2⟩ | ⟨_, h3⟩
        · exact (emptyContra he h2 h1).elim
        · exact h3
      · intro _ hke
        exact Key.noConfusion hke
  · -- pgup
    by_cases hn : (activeCol m).cursor - ((activeCol m).height - 2) < 0
    · refine c2_pack ext m _ hact 0 0 ?_ ?_ ?_ ?_
      · unfold keyRes update plainKey
        rw [hcol] at hn
        simp [hmod, hedit, hact, hcol, hn]
      · intro hne
        exact ⟨by omega, intLen_pos hne⟩
      · intro _ _
        rfl
      · intro _ hke
        exact Key.noConfusion hke
    · refine c2_pack ext m _ hact ((activeCol m).cursor - ((activeCol m).height - 2))
          ((activeCol m).cursor - ((activeCol m).height - 2)) ?_ ?_ ?_ ?_
      · unfold keyRes update plainKey
        rw [hcol] at hn
        simp [hmod, hedit, hact, hcol, hn]
      · intro hne
        rcases hinv with ⟨h1, h2⟩ | ⟨he, _⟩
        · omega
        · exact absurd he hne
      · intro he _
        rcases hinv with ⟨h1, h2⟩ | ⟨_, h3⟩
        · exact (emptyContra he h2 h1).elim
        · omega
      · intro _ hke
        exact Key.noConfusion hke
  · -- pgdown
    by_cases hM : intLen (activeCol m).items
        ≤ (activeCol m).cursor + ((activeCol m).height - 2)
    · by_cases hs : (activeCol m).scrollOffset + ((activeCol m).height - 2)
          ≤ intLen (activeCol m).items - 1
      · refine c2_pack ext m _ hact (intLen (activeCol m).items - 1)
            (intLen (activeCol m).items - 1 - ((activeCol m).height - 2) + 1) ?_ ?_ ?_ ?_
        · unfold keyRes update plainKey
          rw [hcol] at hM hs
          simp [hmod, hedit, hact, hcol, hM, hs]
        · intro hne
          have := intLen_pos hne
          omega
        · intro _ hkn
          exact absurd rfl hkn
        · intro he _
          have h0 : intLen (activeCol m).items = 0 := by rw [he]; rfl
          omega
      · refine c2_pack ext m _ hact (intLen (activeCol m).items - 1)
            ((activeCol m).scrollOffset) ?_ ?_ ?_ ?_
        · unfold keyRes update plainKey
          rw [hcol] at hM hs
          simp [hmod, hedit, hact, hcol, hM, hs]
        · intro hne
          have := intLen_pos hne
          omega
        · intro _ hkn
          exact absurd rfl hkn
        · intro he _
          have h0 : intLen (activeCol m).items = 0 := by rw [he]; rfl
          omega
    · by_cases hs : (activeCol m).scrollOffset + ((activeCol m).height - 2)
          ≤ (activeCol m).cursor + ((activeCol m).height - 2)
      · refine c2_pack ext m _ hact ((activeCol m).cursor + ((activeCol m).height - 2))
            ((activeCol m).cursor + ((activeCol m).height - 2) - ((activeCol m).height - 2) + 1)
            ?_ ?_ ?_ ?_
        · unfold keyRes update plainKey
          rw [hcol] at hM hs
          simp [hmod, hedit, hact, hcol, hM, hs]
        · intro hne
          rcases hinv with ⟨h1, h2⟩ | ⟨he, _⟩
          · omega
          · exact absurd he hne
        · intro _ hkn
          exact absurd rfl hkn
        · intro he _
          rcases hinv with ⟨h1, h2⟩ | ⟨_, h3⟩
          · exact (emptyContra he h2 h1).elim
          · have h0 : intLen (activeCol m).items = 0 := by rw [he]; rfl
            omega
      · refine c2_pack ext m _ hact ((activeCol m).cursor + ((activeCol m).height - 2))
            ((activeCol m).scrollOffset) ?_ ?_ ?_ ?_
        · unfold keyRes update plainKey
          rw [hcol] at hM hs
          simp [hmod, hedit, hact, hcol, hM, hs]
        · intro hne
          rcases hinv with ⟨h1, h2⟩ | ⟨he, _⟩
          · omega
          · exact absurd he hne
        · intro _ hkn
          exact absurd rfl hkn
        · intro he _
          rcases hinv with ⟨h1, h2⟩ | ⟨_, h3⟩
          · exact (emptyContra he h2 h1).elim
          · have h0 : intLen (activeCol m).items = 0 := by rw [he]; rfl
            omega
  · -- home
    refine c2_pack ext m _ hact 0 0 ?_ ?_ ?_ ?_
    · unfold keyRes update plainKey
      simp [hmod, hedit, hact, hcol]
    · intro hne
      exact ⟨by omega, intLen_pos hne⟩
    · intro _ _
      rfl
    · intro _ hke
      exact Key.noConfusion hke
  · -- end
    by_cases he : (activeCol m).items = []
    · refine c2_pack_noop ext m _ hact ?_ ?_ ?_ ?_
      · have he2 := he
        rw [hcol] at he2
        unfold keyRes update plainKey
        simp [hmod, hedit, hact, he2]
      · intro hne
        exact absurd he hne
      · intro _ _
        rcases hinv with ⟨h1, h2⟩ | ⟨_, h3⟩
        · exact (emptyContra he h2 h1).elim
        · exact h3
      · intro _ hke
        exact Key.noConfusion hke
    · by_cases hv : ((activeCol m).height - 2) < intLen (activeCol m).items
      · refine c2_pack ext m _ hact (intLen (activeCol m).items - 1)
            (intLen (activeCol m).items - ((activeCol m).height - 2)) ?_ ?_ ?_ ?_
        · have he2 := he
          have hv2 := hv
          rw [hcol] at he2 hv2
          have hie : (m.columns[m.activeColumn]).items.isEmpty = false := by simp [he2]
          unfold keyRes update plainKey
          simp [hmod, hedit, hact, hcol, hie, hv2]
        · intro hne
          have := intLen_pos hne
          omega
        · intro hee _
          exact absurd hee he
        · intro _ hke
          exact Key.noConfusion hke
      · refine c2_pack ext m _ hact (intLen (activeCol m).items - 1) 0 ?_ ?_ ?_ ?_
        · have he2 := he
          have hv2 := hv
          rw [hcol] at he2 hv2
          have hie : (m.columns[m.activeColumn]).items.isEmpty = false := by simp [he2]
          unfold keyRes update plainKey
          simp [hmod, hedit, hact, hcol, hie, hv2]
        · intro hne
          have := intLen_pos hne
          omega
        · intro hee _
          exact absurd hee he
        · intro _ hke
          exact Key.noConfusion hke

/-- C2 witness: a down key on a concrete two-item column. -/
theorem c2_cursor_move_witness :
    (Key.down ∈ cursorMoveKeys) ∧ C2Conclusion extId m2w .down :=
  ⟨by decide,
   c2_cursor_move extId m2w .down (by decide) rfl rfl (by decide) (by decide)
     (Or.inl (by decide))⟩

end ONav
